import Mathlib

/-!
Verification of the metadata decision-and-redaction engine of `met.py`
(MetadataRemover).

The Python source is shallowly embedded:

* paths and strings are `List Char`;
* metadata mappings (Python dicts produced by `json.loads` on exiftool
  output, or collected from PIL) are association lists
  `List (String × String)`; only keys and emptiness are ever inspected by
  the program logic under verification, so values are modelled by their
  string rendering;
* every external effect (subprocess invocation, file move, image
  decode/encode) is an explicit oracle datum enumerating the outcomes the
  Python code distinguishes, including the exceptions its `except` clauses
  catch;
* file contents are opaque (`Nat` identifiers): the code never inspects
  bytes, it only copies/renames whole files. `shutil.move` between the
  staging folder and the watched tree stays on one filesystem (the staging
  folder lives inside the watched root), so it is modelled as an atomic
  rename: either the destination becomes exactly the fully written source
  content, or the call raises and no file changes.
-/

abbrev Chars := List Char

/-- Model of `os.path.basename`: the suffix after the last `/`. -/
def basename (p : Chars) : Chars :=
  (p.reverse.takeWhile (fun c => c != '/')).reverse

/-- Split off the last `.` of a string: returns the part before the last
dot and the part from the last dot on. `none` when there is no dot. -/
def lastDotSplit : Chars → Option (Chars × Chars)
  | [] => none
  | c :: rest =>
    match lastDotSplit rest with
    | some (b, e) => some (c :: b, e)
    | none => if c = '.' then some ([], c :: rest) else none

/-- Model of `os.path.splitext(p)[1]`: the extension (with its dot) of the
final path component, empty when the dots before it are only leading dots
of the component (CPython `posixpath.splitext` semantics). -/
def splitext_ext (p : Chars) : Chars :=
  match lastDotSplit (basename p) with
  | none => []
  | some (pre, e) => if pre.all (fun c => c == '.') then [] else e

/-- Model of `os.path.splitext(file_path)[1].lower()`. -/
def extLower (p : Chars) : Chars :=
  (splitext_ext p).map Char.toLower

/-- Model of `os.path.join(a, b)` (posixpath): `b` if `b` is absolute,
else `a ++ b` when `a` is empty or ends in the separator, else
`a ++ "/" ++ b`. -/
def pyJoin (a b : Chars) : Chars :=
  if b.head? = some '/' then b
  else if a = [] ∨ a.getLast? = some '/' then a ++ b
  else a ++ '/' :: b

/-- Model of the Python substring test `needle in hay` on `str`. -/
def strContains : Chars → Chars → Bool
  | n, [] => n.isPrefixOf []
  | n, c :: t => n.isPrefixOf (c :: t) || strContains n t

/-- `self.temp_folder = os.path.join(self.folder_path, "_temp_metadata_cleaner")`. -/
def temp_folder_of (root : Chars) : Chars :=
  pyJoin root ("_temp_metadata_cleaner".toList)

/-- Staging path used by `clean_metadata`:
`temp_file = os.path.join(self.temp_folder, os.path.basename(file_path))`. -/
def temp_file_of (root : Chars) (path : Chars) : Chars :=
  pyJoin (temp_folder_of root) (basename path)

/-! ## Capability probe (`MetadataCleaner._check_required_tools`) -/

/-- Outcome of one `subprocess.run([tool, versionFlag], check=False)` call
in the probe. `completed c` is a run that returned a `CompletedProcess`
with `returncode = c`: with `check=False` this never raises, whatever `c`.
The probe's `except` clause catches exactly `FileNotFoundError` and
`subprocess.SubprocessError`. -/
inductive ProbeRun where
  | fileNotFound
  | subprocessErr
  | completed (returncode : Int)
deriving DecidableEq, Repr

/-- Per-tool status recorded in `self.available_tools`. -/
structure ToolsStatus where
  exiftool : Bool
  qpdf : Bool
deriving DecidableEq, Repr

/-- One arm of `_check_required_tools`: `True` when `subprocess.run`
returns (check=False ignores the exit status), `False` when the listed
exceptions are raised. -/
def probe_tool : ProbeRun → Bool
  | .fileNotFound => false
  | .subprocessErr => false
  | .completed _ => true

/-- Model of `MetadataCleaner._check_required_tools`, parameterised by the
outcome of the two probe invocations. -/
def check_required_tools (exifRun qpdfRun : ProbeRun) : ToolsStatus :=
  { exiftool := probe_tool exifRun, qpdf := probe_tool qpdfRun }

/-! ## Metadata inspector (`get_metadata_with_exiftool`, `has_metadata`) -/

/-- Metadata mapping: keys and (string-rendered) values. -/
abbrev Meta := List (String × String)

/-- A Python exception value (the payload is never inspected). -/
inductive PyExn where
  | err
deriving DecidableEq, Repr

/-- Outcome of `subprocess.run(['exiftool','-json',file_path])` together
with the subsequent `json.loads`/indexing in `get_metadata_with_exiftool`:
* `raises`: the invocation itself raises (caught, returns `{}`);
* `exitNonzero`: `returncode != 0` (returns `{}`);
* `parseFails`: `json.loads` raises, or indexing `metadata[0]` on a
  non-list raises (caught, returns `{}`);
* `parsedEmpty`: parsed JSON is an empty/falsy list (returns `{}`);
* `parsedDict m`: parsed `metadata[0]` is the dict `m`;
* `parsedOther`: parsed `metadata[0]` is not a dict (returned as-is;
  `.items()` on it later raises `AttributeError` inside `has_metadata`). -/
inductive ExifToolRun where
  | raises
  | exitNonzero
  | parseFails
  | parsedEmpty
  | parsedDict (m : Meta)
  | parsedOther
deriving DecidableEq, Repr

/-- The Python object returned by `get_metadata_with_exiftool`. -/
inductive PyObj where
  | dict (m : Meta)
  | other
deriving DecidableEq, Repr

/-- Outcome of the PIL fallback branch of `has_metadata`: opening/reading
the image raises (caught in-branch), or yields the `_getexif` tag dict and
the `img.info` dict. An absent/falsy `_getexif` is the empty tag list. -/
inductive ImgOutcome where
  | raises
  | ok (exifTags : Meta) (info : Meta)
deriving DecidableEq, Repr

/-- Environment of one `has_metadata` call. -/
structure InspectEnv where
  exiftool : Bool
  exifRun : ExifToolRun
  img : ImgOutcome
deriving DecidableEq, Repr

/-- Model of `MetadataCleaner.get_metadata_with_exiftool`. Never raises:
both its failure modes are caught inside and yield `{}`. -/
def get_metadata_with_exiftool (avail : Bool) (r : ExifToolRun) : PyObj :=
  if !avail then .dict [("error", "ExifTool no disponible")]
  else
    match r with
    | .raises => .dict []
    | .exitNonzero => .dict []
    | .parseFails => .dict []
    | .parsedEmpty => .dict []
    | .parsedDict m => .dict m
    | .parsedOther => .other

/-- Keys dropped by `has_metadata` before deciding non-emptiness. -/
def excludedKeys : List String :=
  ["FileSize", "FileName", "FileType", "MIMEType", "ExifToolVersion"]

/-- `img.info` keys skipped by the PIL fallback branch. -/
def pilInfoExcluded : List String :=
  ["dpi", "jfif", "jfif_version", "jfif_unit", "jfif_density"]

/-- The dict comprehension filtering out `excludedKeys`. -/
def filterExcluded (m : Meta) : Meta :=
  m.filter (fun kv => !(excludedKeys.contains kv.1))

/-- Image extension allow-list of `has_metadata` (line 166). -/
def imageExts : List Chars :=
  [".jpg".toList, ".jpeg".toList, ".png".toList, ".tiff".toList,
   ".tif".toList, ".webp".toList]

/-- Document/office extension allow-list of `has_metadata` (line 187). -/
def docExts : List Chars :=
  [".pdf".toList, ".docx".toList, ".doc".toList, ".pptx".toList,
   ".xlsx".toList, ".xls".toList]

/-- Media extension allow-list of `has_metadata` (line 191). -/
def mediaExts : List Chars :=
  [".mp3".toList, ".mp4".toList, ".avi".toList, ".mov".toList,
   ".wav".toList]

/-- Body of `MetadataCleaner.has_metadata` under its outermost
`try`: `.error` is an exception that reaches the outermost handler
(only the `.items()` call on a non-dict exiftool result can). -/
def hmBody (env : InspectEnv) (path : Chars) : Except PyExn (Bool × Meta) :=
  let ext := extLower path
  if env.exiftool then
    match get_metadata_with_exiftool env.exiftool env.exifRun with
    | .dict m =>
      let fm := filterExcluded m
      .ok (!fm.isEmpty, fm)
    | .other => .error .err
  else if imageExts.contains ext then
    match env.img with
    | .raises => .ok (false, [])
    | .ok tags info =>
      let ed := tags ++ info.filter (fun kv => !(pilInfoExcluded.contains kv.1))
      .ok (!ed.isEmpty, ed)
  else if docExts.contains ext then
    .ok (true, [("warning", "Archivo potencialmente con metadatos")])
  else if mediaExts.contains ext then
    .ok (true, [("warning", "Archivo multimedia potencialmente con metadatos")])
  else
    .ok (false, [])

/-- Model of `MetadataCleaner.has_metadata`: the body with the outermost
`except Exception` handler, which returns `(False, {})`. -/
def has_metadata (env : InspectEnv) (path : Chars) : Bool × Meta :=
  match hmBody env path with
  | .ok r => r
  | .error _ => (false, [])

/-- `has_metadata` viewed at the call boundary: `.error` would be an
exception escaping to the caller; the outermost handler converts every
body exception to `.ok (false, [])`. -/
def has_metadata_exc (env : InspectEnv) (path : Chars) :
    Except PyExn (Bool × Meta) :=
  match hmBody env path with
  | .ok r => .ok r
  | .error _ => .ok (false, [])

/-! ## Metadata redactor (`MetadataCleaner.clean_metadata`)

The state tracked per call is the content of the original file at
`file_path` and of the staging file at `temp_file`. File contents are
opaque identifiers. Oracle fields fix the outcome of each external call
site:

* a subprocess that raises or exits nonzero writes nothing useful and
  leaves both files as they were (`exiftool -o` only produces its output
  file on success; `qpdf --replace-input` replaces its input only on
  success);
* `shutil.move` is a same-filesystem rename: atomically either the
  original becomes the staged content (and the staging file is gone), or
  the call raises and nothing changes. -/

/-- Opaque file content. -/
abbrev Content := Nat

/-- Outcome of a cleaning subprocess call (`check=False`): the invocation
raises (`FileNotFoundError`, timeout, ...), or completes with an exit
code. -/
inductive ToolRun where
  | raises
  | exit (code : Int)
deriving DecidableEq, Repr

/-- Outcome of one `shutil.move` call. -/
inductive MoveRes where
  | ok
  | raises
deriving DecidableEq, Repr

/-- Outcome of the PIL decode/re-encode in the image branch: any
decode/encode error raises (caught in-branch), or a fresh metadata-free
image content is produced at the staging path. -/
inductive ImgEnc where
  | raises
  | ok (c : Content)
deriving DecidableEq, Repr

/-- Files relevant to one `clean_metadata` call: the original at
`file_path` and the staging file at `temp_file` (absent unless written). -/
structure CState where
  original : Content
  temp : Option Content
deriving DecidableEq, Repr

/-- Environment of one `clean_metadata` call. -/
structure RedactEnv where
  exiftool : Bool
  qpdf : Bool
  exifClean : ToolRun
  exifOut : Content
  exifMove : MoveRes
  qpdfRun : ToolRun
  qpdfOut : Content
  imgEnc : ImgEnc
  imgMove : MoveRes
deriving DecidableEq, Repr

/-- Image extension list of `clean_metadata` (line 260), same as the
inspector's. -/
def imageCleanExts : List Chars := imageExts

/-- Office extension list of `clean_metadata` (line 276): note `.doc` and
`.xls` are absent here, unlike the inspector's list. -/
def officeCleanExts : List Chars :=
  [".docx".toList, ".xlsx".toList, ".pptx".toList]

/-- Media extension list of `clean_metadata` (line 281). -/
def mediaCleanExts : List Chars :=
  [".mp3".toList, ".mp4".toList, ".avi".toList, ".mov".toList,
   ".wav".toList]

/-- The per-extension part of `clean_metadata` (lines 236-286), reached
when exiftool is unavailable, exited nonzero, raised, or its `shutil.move`
raised. -/
def clean_fallback (env : RedactEnv) (ext : Chars) (s : CState) :
    Bool × CState :=
  if ext = ".pdf".toList then
    if env.qpdf then
      match env.qpdfRun with
      | .raises => (false, s)
      | .exit c => if c = 0 then (true, { s with original := env.qpdfOut })
                   else (false, s)
    else (false, s)
  else if imageCleanExts.contains ext then
    match env.imgEnc with
    | .raises => (false, s)
    | .ok c =>
      let s1 : CState := { s with temp := some c }
      match env.imgMove with
      | .ok => (true, { original := c, temp := none })
      | .raises => (false, s1)
  else if officeCleanExts.contains ext then (false, s)
  else if mediaCleanExts.contains ext then (false, s)
  else (false, s)

/-- Model of `MetadataCleaner.clean_metadata`. Returns the Python result
(`True` = cleaned) together with the final file state. -/
def clean_metadata (env : RedactEnv) (path : Chars) (s : CState) :
    Bool × CState :=
  let ext := extLower path
  if env.exiftool then
    match env.exifClean with
    | .raises => clean_fallback env ext s
    | .exit c =>
      if c = 0 then
        let s1 : CState := { s with temp := some env.exifOut }
        match env.exifMove with
        | .ok => (true, { original := env.exifOut, temp := none })
        | .raises => clean_fallback env ext s1
      else clean_fallback env ext s
  else clean_fallback env ext s

/-! ## Watchdog event handler guards (`MetadataEventHandler`) -/

/-- A raw filesystem event as delivered by the watch layer. -/
structure FsEvent where
  isDirectory : Bool
  srcPath : Chars
deriving DecidableEq, Repr

/-- Extension tuple admitted by `on_modified` (lines 458-459). -/
def relevantModifyExts : List Chars :=
  [".jpg".toList, ".jpeg".toList, ".png".toList, ".pdf".toList,
   ".docx".toList, ".doc".toList, ".pptx".toList, ".xlsx".toList,
   ".xls".toList, ".mp3".toList, ".mp4".toList, ".avi".toList]

/-- Whether `on_created` reaches per-file processing (inspection,
redaction, notification) for an event, given the temp-folder path, the
current `recently_processed` set and whether `os.path.exists` holds after
the settling sleep. Mirrors the guard cascade of lines 395-407. -/
def on_created_proceeds (tempFolder : Chars) (e : FsEvent)
    (recently : List Chars) (fExists : Bool) : Bool :=
  if e.isDirectory || strContains tempFolder e.srcPath then false
  else if recently.contains e.srcPath then false
  else fExists

/-- Whether `on_modified` reaches per-file processing. Mirrors the guard
cascade of lines 445-461, including the relevant-extension filter. -/
def on_modified_proceeds (tempFolder : Chars) (e : FsEvent)
    (recently : List Chars) (fExists : Bool) : Bool :=
  if e.isDirectory || strContains tempFolder e.srcPath then false
  else if recently.contains e.srcPath then false
  else fExists && relevantModifyExts.contains (extLower e.srcPath)

/-! ## Change deduplicator (`recently_processed` set, lines 391-495)

Per delivered event, the handler executes (after the directory/temp-folder
guards) this sequence of statements on the shared
`self.recently_processed` set:

1. `if event.src_path in self.recently_processed: return`
2. `self.recently_processed.add(event.src_path)`
3. per-file processing (guarded by `os.path.exists`, and for modify
   events by the relevant-extension filter)
4. `finally`: `if ... in self.recently_processed: ....remove(...)`

Each numbered statement is an atomic action on the shared set (CPython
executes each such set operation under the interpreter lock), but
different events' statements may interleave arbitrarily. The model below
is that interleaving semantics: one thread per delivered event, a shared
pending list, and a deterministic `dedupRun` over an explicit schedule.
The `admitGate` field of a thread packages the post-sleep
`os.path.exists` test (and, for modify events, the extension filter) that
the code checks inside step 3. -/

/-- Program counter of one in-flight handler invocation. -/
inductive DedupPC where
  | checkSet
  | insertSet
  | processFile
  | removeSet
  | finished
deriving DecidableEq, Repr

/-- One in-flight handler invocation for a delivered event. `admitted` is
set when the event reaches per-file processing (inspection/redaction). -/
structure EvThread where
  path : Chars
  admitGate : Bool
  pc : DedupPC
  admitted : Bool
deriving DecidableEq, Repr

/-- Shared deduplicator state: the `recently_processed` set plus all
in-flight handler invocations. -/
structure DedupState where
  pending : List Chars
  threads : List EvThread
deriving DecidableEq, Repr

/-- Python `set.add`: no-op when already present. -/
def pySetAdd (p : Chars) (l : List Chars) : List Chars :=
  if p ∈ l then l else p :: l

/-- Python `set.remove` under the handler's membership guard. -/
def pySetRemove (p : Chars) (l : List Chars) : List Chars :=
  l.erase p

/-- One atomic step of a single handler invocation against the shared
set. -/
def dedupStepT (pend : List Chars) (t : EvThread) :
    List Chars × EvThread :=
  match t.pc with
  | .checkSet =>
    if t.path ∈ pend then (pend, { t with pc := .finished })
    else (pend, { t with pc := .insertSet })
  | .insertSet => (pySetAdd t.path pend, { t with pc := .processFile })
  | .processFile =>
    (pend, { t with pc := .removeSet, admitted := t.admitGate })
  | .removeSet =>
    (if t.path ∈ pend then pySetRemove t.path pend else pend,
     { t with pc := .finished })
  | .finished => (pend, t)

/-- Advance thread `i` of the system by one atomic step. -/
def dedupStep (s : DedupState) (i : Nat) : DedupState :=
  match s.threads[i]? with
  | none => s
  | some t =>
    let r := dedupStepT s.pending t
    { pending := r.1, threads := s.threads.set i r.2 }

/-- Run a schedule (a list of thread indices, each naming the thread that
takes the next atomic step). -/
def dedupRun (sched : List Nat) (s : DedupState) : DedupState :=
  sched.foldl dedupStep s

/-- Initial system for a burst of delivered events. -/
def dedupInit (evs : List (Chars × Bool)) : DedupState :=
  { pending := [],
    threads := evs.map (fun e =>
      { path := e.1, admitGate := e.2, pc := .checkSet, admitted := false }) }

/-- How many delivered events were admitted to per-file processing. -/
def admittedCount (s : DedupState) : Nat :=
  (s.threads.filter (fun t => t.admitted)).length

/-- Whether thread `i` has been admitted. -/
def threadAdmitted (s : DedupState) (i : Nat) : Bool :=
  match s.threads[i]? with
  | some t => t.admitted
  | none => false

/-! ## Witness fixtures -/

/-- Fixture: a thread finished without having been admitted. -/
def ThreadFinishedUnadmitted (s : DedupState) (i : Nat) : Prop :=
  ∃ t, s.threads[i]? = some t ∧ t.pc = .finished ∧ t.admitted = false

/-- Fixture: redaction environment in which every external call raises. -/
def envAllRaise : RedactEnv :=
  { exiftool := true, qpdf := true, exifClean := .raises, exifOut := 0,
    exifMove := .raises, qpdfRun := .raises, qpdfOut := 0,
    imgEnc := .raises, imgMove := .raises }

/-- Fixture: exiftool stripping exits nonzero, qpdf succeeds. -/
def envPdfFallback : RedactEnv :=
  { exiftool := true, qpdf := true, exifClean := .exit 1, exifOut := 0,
    exifMove := .ok, qpdfRun := .exit 0, qpdfOut := 7,
    imgEnc := .raises, imgMove := .ok }

/-- Fixture: exiftool available but its inspection exits nonzero. -/
def envExifFail : InspectEnv :=
  { exiftool := true, exifRun := .exitNonzero, img := .raises }

/-- Fixture: exiftool unavailable. -/
def envNoExif : InspectEnv :=
  { exiftool := false, exifRun := .raises, img := .raises }

/-- Fixture: exiftool output parses to a non-dict first element. -/
def envParsedOther : InspectEnv :=
  { exiftool := true, exifRun := .parsedOther, img := .raises }

/-- Fixture: exiftool reports only an excluded structural field. -/
def envParsedExcluded : InspectEnv :=
  { exiftool := true, exifRun := .parsedDict [("FileSize", "12 kB")],
    img := .raises }

/-- Fixture: one handler invocation for path `a` is mid-flight (the path
is pending), a second invocation for `a` is about to run its membership
check. -/
def dedupWitState : DedupState :=
  { pending := ["a".toList],
    threads :=
      [{ path := "a".toList, admitGate := true, pc := .processFile,
         admitted := false },
       { path := "a".toList, admitGate := true, pc := .checkSet,
         admitted := false }] }

/-! ## Helper lemmas -/

theorem isPrefixOf_self_append (n r : Chars) : n.isPrefixOf (n ++ r) = true := by
  induction n with
  | nil => simp
  | cons a t ih => simp [ih]

theorem strContains_of_prefix (n h : Chars) (hp : n.isPrefixOf h = true) :
    strContains n h = true := by
  cases h with
  | nil => simpa [strContains] using hp
  | cons c t => simp [strContains, hp]

theorem mem_of_contains {e : Chars} {l : List Chars}
    (h : l.contains e = true) : e ∈ l := by
  rcases List.contains_iff_exists_mem_beq.mp h with ⟨b, hb, hbe⟩
  rwa [eq_of_beq hbe]

theorem contains_of_mem {e : Chars} {l : List Chars} (h : e ∈ l) :
    l.contains e = true :=
  List.contains_iff_exists_mem_beq.mpr ⟨e, h, by simp⟩

theorem not_mem_of_contains_false {e : Chars} {l : List Chars}
    (h : l.contains e = false) : e ∉ l := by
  intro hm
  rw [contains_of_mem hm] at h
  cases h

theorem doc_not_image (e : Chars) (h : docExts.contains e = true) :
    e ∉ imageExts := by
  have hm := mem_of_contains h
  fin_cases hm <;> decide

theorem media_not_image (e : Chars) (h : mediaExts.contains e = true) :
    e ∉ imageExts := by
  have hm := mem_of_contains h
  fin_cases hm <;> decide

theorem media_not_doc (e : Chars) (h : mediaExts.contains e = true) :
    e ∉ docExts := by
  have hm := mem_of_contains h
  fin_cases hm <;> decide

/-! ## C3: capability probe -/

/-- C3 counterexample: the claim says a tool whose version query runs but
errors (exits nonzero) is classified `installed = false`; in the code
`subprocess.run(..., check=False)` does not raise on a nonzero exit, so
the probe records `installed = true` for a binary that ran and exited 1. -/
theorem C3_counterexample :
    (check_required_tools (.completed 1) .fileNotFound).exiftool = true := rfl

/-- C3 amended: the probe is a total function of the two invocation
outcomes (`FileNotFoundError` and `subprocess.SubprocessError` are caught;
a completed run never raises because `check=False`), and it classifies a
tool as `installed = false` exactly when the invocation raises one of
those exceptions; an invocation that completes is classified
`installed = true` regardless of its exit status. -/
theorem C3_probe_classification (r1 r2 : ProbeRun) :
    ((check_required_tools r1 r2).exiftool = false ↔
      r1 = .fileNotFound ∨ r1 = .subprocessErr) ∧
    ((check_required_tools r1 r2).qpdf = false ↔
      r2 = .fileNotFound ∨ r2 = .subprocessErr) := by
  cases r1 <;> cases r2 <;> simp [check_required_tools, probe_tool]

/-! ## C5: inspector fail-open on tool failure -/

/-- C5: with exiftool available, any failure of the invocation (raise or
nonzero exit) or of parsing its output makes `has_metadata` return
`(False, {})`: a tool failure never reports a file as having metadata. -/
theorem C5_inspect_fail_open (env : InspectEnv) (p : Chars)
    (havail : env.exiftool = true)
    (hfail : env.exifRun = .raises ∨ env.exifRun = .exitNonzero ∨
      env.exifRun = .parseFails) :
    has_metadata env p = (false, []) := by
  rcases hfail with h | h | h <;>
    simp [has_metadata, hmBody, get_metadata_with_exiftool, havail, h,
      filterExcluded]

/-- C5 witness. -/
theorem C5_witness :
    envExifFail.exiftool = true ∧
    has_metadata envExifFail ("a.jpg".toList) = (false, []) :=
  ⟨rfl, C5_inspect_fail_open envExifFail ("a.jpg".toList) rfl
    (Or.inr (Or.inl rfl))⟩

/-! ## C6: inspector fallback by extension when exiftool is unavailable -/

/-- C6: without exiftool, a file whose case-normalized extension is in the
document/office allow-list or the media allow-list is reported as having
metadata with the corresponding generic warning snapshot, and a file whose
extension is in none of the image/document/media allow-lists is reported
as `(False, {})`. -/
theorem C6_inspect_no_tool_by_extension (env : InspectEnv) (p : Chars)
    (hna : env.exiftool = false) :
    (docExts.contains (extLower p) = true →
      has_metadata env p =
        (true, [("warning", "Archivo potencialmente con metadatos")])) ∧
    (mediaExts.contains (extLower p) = true →
      has_metadata env p =
        (true, [("warning", "Archivo multimedia potencialmente con metadatos")])) ∧
    (imageExts.contains (extLower p) = false →
      docExts.contains (extLower p) = false →
      mediaExts.contains (extLower p) = false →
      has_metadata env p = (false, [])) := by
  refine ⟨?_, ?_, ?_⟩
  · intro h
    have hd := mem_of_contains h
    have himg := doc_not_image _ h
    simp [has_metadata, hmBody, hna, himg, hd]
  · intro h
    have hm := mem_of_contains h
    have himg := media_not_image _ h
    have hdoc := media_not_doc _ h
    simp [has_metadata, hmBody, hna, himg, hdoc, hm]
  · intro h1 h2 h3
    have g1 := not_mem_of_contains_false h1
    have g2 := not_mem_of_contains_false h2
    have g3 := not_mem_of_contains_false h3
    simp [has_metadata, hmBody, hna, g1, g2, g3]

/-- C6 witness: a `.PDF` (case-normalized to `.pdf`) file is reported as
having metadata with the warning snapshot, and a `.txt` file as clean. -/
theorem C6_witness :
    has_metadata envNoExif ("a.PDF".toList) =
      (true, [("warning", "Archivo potencialmente con metadatos")]) ∧
    has_metadata envNoExif ("b.txt".toList) = (false, []) :=
  ⟨(C6_inspect_no_tool_by_extension envNoExif ("a.PDF".toList) rfl).1
      (by decide),
   (C6_inspect_no_tool_by_extension envNoExif ("b.txt".toList) rfl).2.2
      (by decide) (by decide) (by decide)⟩

/-! ## C7: inspector decision with exiftool available -/

/-- C7: with exiftool available and its output parsed to the mapping `m`,
`has_metadata` reports `True` iff `m` is non-empty after removing the
excluded structural fields; in particular a mapping consisting only of
excluded fields (or empty) is reported as `(False, {})`. -/
theorem C7_inspect_nonempty_iff (env : InspectEnv) (p : Chars) (m : Meta)
    (havail : env.exiftool = true) (hrun : env.exifRun = .parsedDict m) :
    ((has_metadata env p).1 = true ↔ filterExcluded m ≠ []) ∧
    ((∀ kv ∈ m, kv.1 ∈ excludedKeys) → has_metadata env p = (false, [])) := by
  have hm : has_metadata env p =
      (!(filterExcluded m).isEmpty, filterExcluded m) := by
    simp [has_metadata, hmBody, get_metadata_with_exiftool, havail, hrun]
  constructor
  · rw [hm]
    simp [List.isEmpty_iff]
  · intro hall
    have hnil : filterExcluded m = [] := by
      refine List.filter_eq_nil_iff.mpr ?_
      intro kv hkv
      simpa using hall kv hkv
    rw [hm, hnil]
    simp

/-- C7 witness: a file whose exiftool-reported metadata is only the
excluded `FileSize` field is reported as `(False, {})`. -/
theorem C7_witness :
    has_metadata envParsedExcluded ("a.jpg".toList) = (false, []) :=
  (C7_inspect_nonempty_iff envParsedExcluded ("a.jpg".toList)
      [("FileSize", "12 kB")] rfl rfl).2 (by decide)

/-! ## C1: redaction failure leaves the original untouched -/

theorem clean_fallback_failure_keeps_original (env : RedactEnv)
    (ext : Chars) (s : CState)
    (h : (clean_fallback env ext s).1 = false) :
    (clean_fallback env ext s).2.original = s.original := by
  unfold clean_fallback at h ⊢
  cases hq : env.qpdfRun <;> cases hi : env.imgEnc <;>
    cases hm : env.imgMove <;> simp only [hq, hi, hm] at h ⊢ <;>
      split_ifs at h ⊢ <;> simp_all

/-- C1: whenever `clean_metadata` does not return the success outcome, the
original file at `file_path` has exactly its initial content: every
failure branch returns without modifying the original, which is replaced
only by a successful atomic move of a fully written staged copy or by a
successful in-place qpdf rewrite. -/
theorem C1_redact_failure_preserves_original (env : RedactEnv) (p : Chars)
    (s : CState) (h : (clean_metadata env p s).1 = false) :
    (clean_metadata env p s).2.original = s.original := by
  unfold clean_metadata at h ⊢
  cases he : env.exiftool <;> cases hc : env.exifClean <;>
    cases hm : env.exifMove <;> simp only [he, hc, hm] at h ⊢ <;>
      first
        | exact clean_fallback_failure_keeps_original _ _ _ h
        | (split_ifs at h ⊢ <;>
            exact clean_fallback_failure_keeps_original _ _ _ h)

/-- C1 witness: every external call raising on an office file yields the
not-cleaned outcome with the original content untouched. -/
theorem C1_witness :
    (clean_metadata envAllRaise ("x.docx".toList) ⟨5, none⟩).1 = false ∧
    (clean_metadata envAllRaise ("x.docx".toList) ⟨5, none⟩).2.original = 5 :=
  ⟨by decide,
   C1_redact_failure_preserves_original envAllRaise ("x.docx".toList)
     ⟨5, none⟩ (by decide)⟩

/-! ## C4: PDF fallback chain -/

/-- C4: for a `.pdf` file, when exiftool is available but its stripping
invocation fails (raises or exits nonzero) and qpdf is available and
succeeds, `clean_metadata` returns the success outcome: the fallback from
the exiftool step to the per-extension step is honored. -/
theorem C4_pdf_fallback_chain (env : RedactEnv) (p : Chars) (s : CState)
    (hext : extLower p = ".pdf".toList)
    (havail : env.exiftool = true)
    (hfail : env.exifClean = .raises ∨
      ∃ c, env.exifClean = .exit c ∧ c ≠ 0)
    (hq : env.qpdf = true) (hqr : env.qpdfRun = .exit 0) :
    (clean_metadata env p s).1 = true := by
  rcases hfail with h | ⟨c, h, hc⟩
  · simp [clean_metadata, clean_fallback, havail, h, hext, hq, hqr]
  · simp [clean_metadata, clean_fallback, havail, h, hext, hq, hqr, hc]

/-- C4 witness. -/
theorem C4_witness :
    (clean_metadata envPdfFallback ("a.pdf".toList) ⟨3, none⟩).1 = true :=
  C4_pdf_fallback_chain envPdfFallback ("a.pdf".toList) ⟨3, none⟩
    (by decide) rfl (Or.inr ⟨1, rfl, by decide⟩) rfl rfl

/-! ## C8: events under the staging subdirectory are discarded -/

/-- C8: a create or modify event whose path lies inside the staging
subdirectory (the temp folder path followed by anything) is discarded by
the handler's first guard, before deduplication, inspection, redaction or
notification, whatever the dedup set, event kind or file state. -/
theorem C8_staging_events_discarded (tempFolder : Chars) (e : FsEvent)
    (recently : List Chars) (fExists : Bool)
    (hin : ∃ rest, e.srcPath = tempFolder ++ rest) :
    on_created_proceeds tempFolder e recently fExists = false ∧
    on_modified_proceeds tempFolder e recently fExists = false := by
  obtain ⟨rest, hr⟩ := hin
  have hc : strContains tempFolder e.srcPath = true := by
    rw [hr]
    exact strContains_of_prefix _ _ (isPrefixOf_self_append _ _)
  constructor <;> simp [on_created_proceeds, on_modified_proceeds, hc]

/-- C8 witness. -/
theorem C8_witness :
    on_created_proceeds ("/w/_temp_metadata_cleaner".toList)
      ⟨false, "/w/_temp_metadata_cleaner/x.jpg".toList⟩ [] true = false ∧
    on_modified_proceeds ("/w/_temp_metadata_cleaner".toList)
      ⟨false, "/w/_temp_metadata_cleaner/x.jpg".toList⟩ [] true = false :=
  C8_staging_events_discarded ("/w/_temp_metadata_cleaner".toList)
    ⟨false, "/w/_temp_metadata_cleaner/x.jpg".toList⟩ [] true
    ⟨"/x.jpg".toList, by decide⟩

/-! ## C9: staging-name collisions -/

/-- C9 counterexample: two distinct source paths with the same basename in
different directories are staged at the same path, so the claim that every
pair of distinct source paths gets distinct staging names is false. -/
theorem C9_counterexample :
    "/w/a/x.jpg".toList ≠ "/w/b/x.jpg".toList ∧
    temp_file_of ("/w".toList) ("/w/a/x.jpg".toList) =
      temp_file_of ("/w".toList) ("/w/b/x.jpg".toList) := by decide

theorem basename_head_ne_slash (p : Chars) :
    (basename p).head? ≠ some '/' := by
  intro h
  have hm : '/' ∈ basename p := List.mem_of_mem_head? (by simp [h])
  unfold basename at hm
  rw [List.mem_reverse] at hm
  have := List.mem_takeWhile_imp hm
  simp at this

theorem pyJoin_right_inj (a b1 b2 : Chars)
    (h1 : b1.head? ≠ some '/') (h2 : b2.head? ≠ some '/')
    (h : pyJoin a b1 = pyJoin a b2) : b1 = b2 := by
  unfold pyJoin at h
  rw [if_neg h1, if_neg h2] at h
  by_cases ha : a = [] ∨ a.getLast? = some '/'
  · rw [if_pos ha, if_pos ha] at h
    exact List.append_cancel_left h
  · rw [if_neg ha, if_neg ha] at h
    have h3 := List.append_cancel_left h
    injection h3 with h4 h5

/-- C9 amended: the staging name is the source file's basename, so
redactions of two files with distinct basenames never target the same
staging path; distinctness of the full source paths is not enough, since
two files with equal basenames in different directories collide. -/
theorem C9_amended_distinct_basenames (root p q : Chars)
    (h : basename p ≠ basename q) :
    temp_file_of root p ≠ temp_file_of root q := by
  intro he
  exact h (pyJoin_right_inj _ _ _ (basename_head_ne_slash p)
    (basename_head_ne_slash q) he)

/-- C9 amended witness. -/
theorem C9_amended_witness :
    temp_file_of ("/w".toList) ("/w/a/x.jpg".toList) ≠
      temp_file_of ("/w".toList) ("/w/a/y.jpg".toList) :=
  C9_amended_distinct_basenames ("/w".toList) ("/w/a/x.jpg".toList)
    ("/w/a/y.jpg".toList) (by decide)

/-! ## C10: inspect and redact are total at the public interface -/

theorem clean_fallback_all_raises (env : RedactEnv) (ext : Chars)
    (s : CState) (hq : env.qpdfRun = .raises) (hi : env.imgEnc = .raises) :
    clean_fallback env ext s = (false, s) := by
  unfold clean_fallback
  rw [hq, hi]
  split_ifs <;> rfl

/-- C10: for every environment behaviour (including every modelled
exception) and every path, `has_metadata` returns normally — any body
exception is converted to `(False, {})` by the outermost handler — and
`clean_metadata` returns normally; in particular when every external call
of the redactor raises, it returns the not-cleaned result with the files
untouched. -/
theorem C10_public_interface_total (env : InspectEnv) (renv : RedactEnv)
    (p : Chars) (s : CState) :
    (has_metadata_exc env p).isOk = true ∧
    (∀ e, hmBody env p = .error e →
      has_metadata_exc env p = .ok (false, [])) ∧
    ((renv.exifClean = .raises ∧ renv.qpdfRun = .raises ∧
        renv.imgEnc = .raises) →
      clean_metadata renv p s = (false, s)) := by
  refine ⟨?_, ?_, ?_⟩
  · unfold has_metadata_exc
    cases hmBody env p <;> rfl
  · intro e he
    unfold has_metadata_exc
    rw [he]
  · rintro ⟨h1, h2, h3⟩
    unfold clean_metadata
    rw [h1]
    by_cases hx : renv.exiftool = true
    · rw [if_pos hx]
      exact clean_fallback_all_raises renv _ s h2 h3
    · rw [if_neg hx]
      exact clean_fallback_all_raises renv _ s h2 h3

/-- C10 witness: a non-dict exiftool parse makes the inspector body raise
and the outer handler return `(False, {})`; an all-raising redaction
environment returns the not-cleaned result with the state untouched. -/
theorem C10_witness :
    hmBody envParsedOther ("a.jpg".toList) = .error .err ∧
    has_metadata_exc envParsedOther ("a.jpg".toList) = .ok (false, []) ∧
    clean_metadata envAllRaise ("a.pdf".toList) ⟨5, none⟩ =
      (false, ⟨5, none⟩) :=
  ⟨rfl,
   (C10_public_interface_total envParsedOther envAllRaise ("a.jpg".toList)
      ⟨5, none⟩).2.1 .err rfl,
   (C10_public_interface_total envParsedOther envAllRaise ("a.pdf".toList)
      ⟨5, none⟩).2.2 ⟨rfl, rfl, rfl⟩⟩

/-! ## C2: deduplication of rapid-fire events -/

/-- C2 counterexample: two rapid-fire create events for the same path,
both delivered within the settling window. The membership test
(statement 1) and the set insertion (statement 2) of the handler are
distinct atomic actions, so the interleaving in which both invocations run
their membership checks before either inserts the path admits both events
to per-file processing: 2 events are admitted, not exactly 1. -/
theorem C2_counterexample :
    admittedCount
      (dedupRun [0, 1, 0, 1, 0, 1]
        (dedupInit [("a".toList, true), ("a".toList, true)])) = 2 ∧
    admittedCount
      (dedupRun [0, 1, 0, 1, 0, 1]
        (dedupInit [("a".toList, true), ("a".toList, true)])) ≠ 1 := by
  decide

theorem dedupStep_preserves_finished (s : DedupState) (i j : Nat)
    (h : ThreadFinishedUnadmitted s i) :
    ThreadFinishedUnadmitted (dedupStep s j) i := by
  obtain ⟨t, ht, hpc, had⟩ := h
  unfold dedupStep
  cases hj : s.threads[j]? with
  | none => exact ⟨t, ht, hpc, had⟩
  | some tj =>
    by_cases hij : j = i
    · subst hij
      rw [ht] at hj
      injection hj with hjt
      subst hjt
      have hstep : dedupStepT s.pending t = (s.pending, t) := by
        unfold dedupStepT
        rw [hpc]
      obtain ⟨hlen, -⟩ := List.getElem?_eq_some_iff.mp ht
      refine ⟨t, ?_, hpc, had⟩
      simp only [hstep]
      simp [List.getElem?_set_self hlen]
    · refine ⟨t, ?_, hpc, had⟩
      simp only [List.getElem?_set_ne hij]
      exact ht

theorem dedupRun_preserves_finished (sched : List Nat) (s : DedupState)
    (i : Nat) (h : ThreadFinishedUnadmitted s i) :
    ThreadFinishedUnadmitted (dedupRun sched s) i := by
  induction sched generalizing s with
  | nil => exact h
  | cons j rest ih => exact ih _ (dedupStep_preserves_finished s i j h)

/-- C2 amended: the second half of the claim holds — an event whose
membership check executes while its path is in the pending set is
discarded at once and is never admitted to per-file processing, however
the remaining interleaving goes. The first half ("exactly one of N
rapid-fire events is admitted") does not hold: two invocations whose
checks both precede either insertion are both admitted
(`C2_counterexample`), as are events handled after an earlier handler
already removed the path. -/
theorem C2_amended_pending_check_never_admitted (s : DedupState) (i : Nat)
    (t : EvThread) (sched : List Nat)
    (ht : s.threads[i]? = some t) (hpc : t.pc = .checkSet)
    (hmem : t.path ∈ s.pending) (had : t.admitted = false) :
    threadAdmitted (dedupRun sched (dedupStep s i)) i = false := by
  have h1 : ThreadFinishedUnadmitted (dedupStep s i) i := by
    unfold dedupStep
    simp only [ht]
    have hstep : dedupStepT s.pending t =
        (s.pending, { t with pc := .finished }) := by
      unfold dedupStepT
      rw [hpc, if_pos hmem]
    obtain ⟨hlen, -⟩ := List.getElem?_eq_some_iff.mp ht
    refine ⟨{ t with pc := .finished }, ?_, rfl, had⟩
    simp only [hstep]
    simp [List.getElem?_set_self hlen]
  obtain ⟨t2, ht2, hp2, had2⟩ :=
    dedupRun_preserves_finished sched (dedupStep s i) i h1
  unfold threadAdmitted
  rw [ht2]
  exact had2

/-- C2 amended witness: with one invocation for path `a` mid-flight (the
path pending) and a second invocation for `a` at its membership check,
the second is never admitted. -/
theorem C2_amended_witness :
    threadAdmitted (dedupRun [1, 0, 0, 1] (dedupStep dedupWitState 1)) 1 =
      false :=
  C2_amended_pending_check_never_admitted dedupWitState 1
    { path := "a".toList, admitGate := true, pc := .checkSet,
      admitted := false }
    [1, 0, 0, 1] (by decide) rfl (by decide) rfl
